import Mathlib

/-!
# Shopping-cart simulator (`src/js/script.js`)

A shallow embedding of the cart logic of the page script: the catalog
`products`, the cart lines, `updateCartTotal`, `saveCartToStorage`,
`renderCart`, `handleAddToCart`, the clear-cart click handler and the
initialisation of `cart` from `localStorage`.

Modelling conventions.

* A JavaScript number is a `JSNum`: either `NaN` or an integer.  The numbers
  the script handles are catalog ids and prices (integers) and the results of
  `parseInt` (an integer or `NaN`); integers are taken exactly, as they are in
  a double inside the safe range `±2^53`.  Rounding and the infinities of
  doubles are outside the model.
* A cart line is a record whose product fields `id`, `name` and `price` may be
  missing (`none`): `{ ...undefined, quantity: q }` is an object with the single
  property `quantity`.
* The DOM is reduced to the text of the total (`cartTotalSpan.textContent`);
  the list markup written to `cartItemsContainer` is not modelled.
* `localStorage` is reduced to the slot stored under the key `'cart'`.  A
  stored text is modelled by what `JSON.parse` makes of it: either it is not
  JSON (`StoredText.malformed`) or it denotes a JSON value.
-/

namespace CartSim

/-! ## Numbers -/

/-- A JavaScript number as the script meets it: `NaN` or an integer. -/
inductive JSNum where
  | nan : JSNum
  | int (n : Int) : JSNum
  deriving DecidableEq, Repr

namespace JSNum

/-- JavaScript `+` on numbers: `NaN` is absorbing. -/
def add : JSNum → JSNum → JSNum
  | int a, int b => int (a + b)
  | _, _ => nan

/-- JavaScript `*` on numbers: `NaN` is absorbing (also against `0`). -/
def mul : JSNum → JSNum → JSNum
  | int a, int b => int (a * b)
  | _, _ => nan

instance : Add JSNum := ⟨add⟩
instance : Mul JSNum := ⟨mul⟩
instance : Zero JSNum := ⟨int 0⟩

/-- The method `Number.prototype.toFixed(2)` on a `JSNum`: an integer is written in
decimal followed by `.00`, `NaN` is written `NaN`. -/
def toFixed2 : JSNum → String
  | nan => "NaN"
  | int n => toString n ++ ".00"

end JSNum

/-- The conversion `ToNumber` applied to a property that may be missing: reading a missing
property gives `undefined`, which converts to `NaN`. -/
def toNumber : Option Int → JSNum
  | none => JSNum.nan
  | some n => JSNum.int n

/-! ## Data -/

/-- An entry of the catalog: `{ id, name, price }`. -/
structure Product where
  id : Int
  name : String
  price : Int
  deriving DecidableEq, Repr

/-- A line of the cart: the product fields copied by the object spread (each
missing when the spread object was `undefined`) and the quantity. -/
structure CartLine where
  id : Option Int
  name : Option String
  price : Option Int
  quantity : JSNum
  deriving DecidableEq, Repr

/-- The catalog `products` of the script. -/
def products : List Product :=
  [ { id := 1, name := "Procesador Ryzen 5", price := 250 },
    { id := 2, name := "Tarjeta Gráfica RTX 4070", price := 400 },
    { id := 3, name := "Memoria RAM 16GB", price := 80 },
    { id := 4, name := "SSD 1TB", price := 120 } ]

/-! ## JSON and the storage slot -/

/-- A JavaScript value as far as `JSON.stringify` and `JSON.parse` need it. -/
inductive JSValue where
  | null : JSValue
  | bool (b : Bool) : JSValue
  | num (n : JSNum) : JSValue
  | str (s : String) : JSValue
  | arr (items : List JSValue) : JSValue
  | obj (props : List (String × JSValue)) : JSValue

/-- A text held in `localStorage`, seen through `JSON.parse`: either it is not
JSON at all, or it is the JSON text of a value (which never contains `NaN`). -/
inductive StoredText where
  | malformed : StoredText
  | json (doc : JSValue) : StoredText

/-- The error `JSON.parse` throws. -/
inductive JSError where
  | syntaxError : JSError
  deriving DecidableEq, Repr

/-- The page state the cart logic reads and writes: the variable `cart`, the
text of `cartTotalSpan`, and the `localStorage` slot `'cart'` (`none` when the
key is absent). -/
structure State where
  cart : List CartLine
  cartTotalSpan : String
  storedCart : Option StoredText

/-- The cart line as a runtime object: its own properties in insertion order,
`id`, `name`, `price` (when present), then `quantity`. -/
def CartLine.toJS (item : CartLine) : JSValue :=
  JSValue.obj
    ((item.id.map fun i => ("id", JSValue.num (JSNum.int i))).toList ++
     (item.name.map fun s => ("name", JSValue.str s)).toList ++
     (item.price.map fun p => ("price", JSValue.num (JSNum.int p))).toList ++
     [("quantity", JSValue.num item.quantity)])

/-- The cart as a runtime value: an array of line objects. -/
def cartToJS (cart : List CartLine) : JSValue :=
  JSValue.arr (cart.map CartLine.toJS)

/-- What `JSON.stringify` writes for a number: a number that is not finite is
written `null`. -/
def stringifyNum : JSNum → JSValue
  | JSNum.nan => JSValue.null
  | JSNum.int n => JSValue.num (JSNum.int n)

/-- What `JSON.stringify` writes for a cart line: every own property, in
order, numbers through `stringifyNum`. -/
def stringifyLine (item : CartLine) : JSValue :=
  JSValue.obj
    ((item.id.map fun i => ("id", stringifyNum (JSNum.int i))).toList ++
     (item.name.map fun s => ("name", JSValue.str s)).toList ++
     (item.price.map fun p => ("price", stringifyNum (JSNum.int p))).toList ++
     [("quantity", stringifyNum item.quantity)])

/-- The call `JSON.stringify(cart)`: the JSON text of the array of lines. -/
def JSON.stringify (cart : List CartLine) : StoredText :=
  StoredText.json (JSValue.arr (cart.map stringifyLine))

/-- The call `JSON.parse(localStorage.getItem('cart'))`: an absent key gives `null`,
whose string form `"null"` parses to `null`; a text that is not JSON throws. -/
def JSON.parse : Option StoredText → Except JSError JSValue
  | none => Except.ok JSValue.null
  | some StoredText.malformed => Except.error JSError.syntaxError
  | some (StoredText.json doc) => Except.ok doc

/-- JavaScript truthiness (`ToBoolean`): `null`, `false`, `0`, `NaN` and the
empty string are falsy; every array and object is truthy. -/
def truthy : JSValue → Bool
  | JSValue.null => false
  | JSValue.bool b => b
  | JSValue.num JSNum.nan => false
  | JSValue.num (JSNum.int n) => n != 0
  | JSValue.str s => s != ""
  | JSValue.arr _ => true
  | JSValue.obj _ => true

/-- The initial value of `cart`:
`JSON.parse(localStorage.getItem('cart')) || []`. -/
def initialCart (slot : Option StoredText) : Except JSError JSValue :=
  match JSON.parse slot with
  | Except.error e => Except.error e
  | Except.ok v => if truthy v then Except.ok v else Except.ok (JSValue.arr [])

/-- The slot holds serialized cart data: the text `JSON.stringify` writes for
some cart. -/
def IsSerializedCart (slot : Option StoredText) : Prop :=
  ∃ cart : List CartLine, slot = some (JSON.stringify cart)

/-! ## Operations -/

/-- The value of the local `total` of `updateCartTotal`:
`cart.reduce((sum, item) => sum + (item.price * item.quantity), 0)`. -/
def total (cart : List CartLine) : JSNum :=
  cart.foldl (fun sum item => sum + (toNumber item.price * item.quantity)) 0

/-- The function `updateCartTotal()`: writes `total.toFixed(2)` to `cartTotalSpan`. -/
def updateCartTotal (s : State) : State :=
  { s with cartTotalSpan := JSNum.toFixed2 (total s.cart) }

/-- The function `saveCartToStorage()`: `localStorage.setItem('cart', JSON.stringify(cart))`. -/
def saveCartToStorage (s : State) : State :=
  { s with storedCart := some (JSON.stringify s.cart) }

/-- The function `renderCart()`: after writing the list markup (not modelled), updates the
total and saves the cart. -/
def renderCart (s : State) : State :=
  saveCartToStorage (updateCartTotal s)

/-- The object literal `{ ...productToAdd, quantity: quantity }`: the fields of
the product when there is one, none when `productToAdd` is `undefined`. -/
def spreadWithQuantity (productToAdd : Option Product) (quantity : JSNum) : CartLine :=
  match productToAdd with
  | some p => { id := some p.id, name := some p.name, price := some p.price, quantity := quantity }
  | none => { id := none, name := none, price := none, quantity := quantity }

/-- The assignment `existingItem.quantity += quantity` on one line. -/
def addQuantity (quantity : JSNum) (existingItem : CartLine) : CartLine :=
  { existingItem with quantity := existingItem.quantity + quantity }

/-- A write to the object `cart.find(test)` returned, seen from the array: that
object is the first element that passes `test`, and it is changed in place. -/
def mutateFound (test : CartLine → Bool) (change : CartLine → CartLine) :
    List CartLine → List CartLine
  | [] => []
  | item :: rest =>
    if test item then change item :: rest else item :: mutateFound test change rest

/-- The function `handleAddToCart(productId, quantity)`: the matching line is
increased in place, or a new line is pushed; then `renderCart()` runs.  The
product id is an integer, the quantity an integer or `NaN` (what `parseInt`
makes of the quantity field). -/
def handleAddToCart (s : State) (productId : Int) (quantity : JSNum) : State :=
  let existingItem := s.cart.find? (fun item => item.id == some productId)
  renderCart
    (match existingItem with
     | some _ =>
       { s with
         cart := mutateFound (fun item => item.id == some productId)
           (addQuantity quantity) s.cart }
     | none =>
       let productToAdd := products.find? (fun p => p.id == productId)
       { s with cart := s.cart ++ [spreadWithQuantity productToAdd quantity] })

/-- The click handler of `clearCartBtn`: `cart = []; renderCart()`. -/
def clearCart (s : State) : State :=
  renderCart { s with cart := [] }

/-- The page once loaded with nothing stored: `cart` is `[]` and `renderCart()`
has run. -/
def freshState : State :=
  renderCart { cart := [], cartTotalSpan := "", storedCart := none }

/-- An event of the page: a submitted add-to-cart form, or a click on the
clear button. -/
inductive Op where
  | add (productId : Int) (quantity : JSNum) : Op
  | clear : Op

/-- The event adds a product of the catalog (a clear always qualifies). -/
def Op.inCatalog : Op → Bool
  | Op.add productId _ => products.any (fun p => p.id == productId)
  | Op.clear => true

/-- The event supplies a quantity that is an integer and at least 1 (a clear
supplies none and qualifies). -/
def Op.quantityValid : Op → Bool
  | Op.add _ (JSNum.int n) => decide (1 ≤ n)
  | Op.add _ JSNum.nan => false
  | Op.clear => true

/-- The effect of one event. -/
def step (s : State) : Op → State
  | Op.add productId quantity => handleAddToCart s productId quantity
  | Op.clear => clearCart s

/-- The effect of a sequence of events, in order. -/
def run (s : State) (ops : List Op) : State :=
  ops.foldl step s

/-! ## Arithmetic of `JSNum` -/

theorem JSNum.plus_assoc (a b c : JSNum) : a + b + c = a + (b + c) := by
  cases a <;> cases b <;> cases c <;>
    first | rfl | exact congrArg JSNum.int (Int.add_assoc _ _ _)

theorem JSNum.plus_comm (a b : JSNum) : a + b = b + a := by
  cases a <;> cases b <;> first | rfl | exact congrArg JSNum.int (Int.add_comm _ _)

theorem JSNum.zero_plus (a : JSNum) : 0 + a = a := by
  cases a <;> first | rfl | exact congrArg JSNum.int (Int.zero_add _)

theorem JSNum.plus_zero (a : JSNum) : a + 0 = a := by
  rw [JSNum.plus_comm, JSNum.zero_plus]

/-- Multiplying by an integer distributes over `+`, `NaN` included. -/
theorem JSNum.int_times_plus (p : Int) (a b : JSNum) :
    JSNum.int p * (a + b) = JSNum.int p * a + JSNum.int p * b := by
  cases a <;> cases b <;> first | rfl | exact congrArg JSNum.int (Int.mul_add _ _ _)

/-! ## The total -/

theorem total_foldl (cart : List CartLine) (acc : JSNum) :
    cart.foldl (fun sum item => sum + (toNumber item.price * item.quantity)) acc
      = acc + (cart.map fun item => toNumber item.price * item.quantity).sum := by
  induction cart generalizing acc with
  | nil => simp [JSNum.plus_zero]
  | cons item rest ih => simp [ih, JSNum.plus_assoc]

theorem total_eq_sum (cart : List CartLine) :
    total cart = (cart.map fun item => toNumber item.price * item.quantity).sum := by
  simp [total, total_foldl, JSNum.zero_plus]

theorem total_nil : total [] = 0 := rfl

theorem total_cons (item : CartLine) (rest : List CartLine) :
    total (item :: rest) = toNumber item.price * item.quantity + total rest := by
  simp [total_eq_sum]

theorem total_append (xs ys : List CartLine) : total (xs ++ ys) = total xs + total ys := by
  induction xs with
  | nil => simp [total_nil, JSNum.zero_plus]
  | cons x xs ih => simp [total_cons, ih, JSNum.plus_assoc]

theorem total_perm {xs ys : List CartLine} (h : xs.Perm ys) : total xs = total ys := by
  induction h with
  | nil => rfl
  | cons x _ ih => simp [total_cons, ih]
  | swap x y l =>
    simp only [total_cons]
    rw [← JSNum.plus_assoc, ← JSNum.plus_assoc,
      JSNum.plus_comm (toNumber y.price * y.quantity)]
  | trans _ _ ih1 ih2 => exact ih1.trans ih2

/-! ## The state after `renderCart` -/

theorem renderCart_eq (s : State) :
    renderCart s =
      { cart := s.cart, cartTotalSpan := JSNum.toFixed2 (total s.cart),
        storedCart := some (JSON.stringify s.cart) } := rfl

theorem renderCart_cart (s : State) : (renderCart s).cart = s.cart := rfl

/-! ## The in-place update -/

theorem find_none_iff (cart : List CartLine) (productId : Int) :
    cart.find? (fun item => item.id == some productId) = none
      ↔ ∀ item ∈ cart, item.id ≠ some productId := by
  simp [List.find?_eq_none]

theorem find_some_iff (cart : List CartLine) (productId : Int) :
    (∃ found, cart.find? (fun item => item.id == some productId) = some found)
      ↔ ∃ item ∈ cart, item.id = some productId := by
  constructor
  · rintro ⟨found, h⟩
    exact ⟨found, List.mem_of_find?_eq_some h, by simpa using List.find?_some h⟩
  · rintro ⟨item, hmem, hid⟩
    cases h : cart.find? (fun item => item.id == some productId) with
    | some found => exact ⟨found, rfl⟩
    | none => exact absurd hid ((find_none_iff cart productId).1 h item hmem)

theorem mutateFound_append (test : CartLine → Bool) (change : CartLine → CartLine)
    (xs ys : List CartLine) (h : ∀ item ∈ xs, test item = false) :
    mutateFound test change (xs ++ ys) = xs ++ mutateFound test change ys := by
  induction xs with
  | nil => rfl
  | cons item rest ih =>
    have h1 : test item = false := h item (List.mem_cons_self _ _)
    have h2 : ∀ x ∈ rest, test x = false := fun x hx => h x (List.mem_cons_of_mem _ hx)
    simp [mutateFound, h1, ih h2]

theorem mutateFound_twice (test : CartLine → Bool) (c1 c2 : CartLine → CartLine)
    (hc : ∀ item, test (c1 item) = test item) (cart : List CartLine) :
    mutateFound test c2 (mutateFound test c1 cart)
      = mutateFound test (fun item => c2 (c1 item)) cart := by
  induction cart with
  | nil => rfl
  | cons item rest ih =>
    by_cases h : test item = true
    · have h1 : test (c1 item) = true := by rw [hc]; exact h
      simp [mutateFound, h, h1]
    · simp [mutateFound, h, ih]

theorem mutateFound_map_id (test : CartLine → Bool) (change : CartLine → CartLine)
    (hc : ∀ item, (change item).id = item.id) (cart : List CartLine) :
    (mutateFound test change cart).map CartLine.id = cart.map CartLine.id := by
  induction cart with
  | nil => rfl
  | cons item rest ih =>
    by_cases h : test item = true
    · simp [mutateFound, h, hc]
    · simp [mutateFound, h, ih]

/-- The in-place update by position: the first line that passes the test is
replaced, every other position is kept. -/
theorem mutateFound_eq_set (test : CartLine → Bool) (change : CartLine → CartLine)
    (cart : List CartLine) (h : ∃ item ∈ cart, test item = true) :
    ∃ i item, cart[i]? = some item ∧ test item = true ∧
      (∀ j other, j < i → cart[j]? = some other → test other = false) ∧
      mutateFound test change cart = cart.set i (change item) := by
  induction cart with
  | nil => simp at h
  | cons first rest ih =>
    by_cases h1 : test first = true
    · refine ⟨0, first, by simp, h1, ?_, ?_⟩
      · intro j other hj
        exact absurd hj (Nat.not_lt_zero _)
      · simp [mutateFound, h1]
    · have hrest : ∃ item ∈ rest, test item = true := by
        obtain ⟨item, hmem, hitem⟩ := h
        rcases List.mem_cons.1 hmem with heq | hmem
        · exact absurd (heq ▸ hitem) h1
        · exact ⟨item, hmem, hitem⟩
      obtain ⟨i, item, hget, htest, hbefore, hset⟩ := ih hrest
      refine ⟨i + 1, item, by simpa using hget, htest, ?_, ?_⟩
      · intro j other hj hother
        cases j with
        | zero =>
          have : first = other := by simpa using hother
          subst this
          simpa using h1
        | succ k => exact hbefore k other (by omega) (by simpa using hother)
      · simp [mutateFound, h1, hset]

/-! ## The cart after `handleAddToCart` -/

theorem handleAddToCart_cart_found (s : State) (productId : Int) (quantity : JSNum)
    (h : ∃ item ∈ s.cart, item.id = some productId) :
    (handleAddToCart s productId quantity).cart
      = mutateFound (fun item => item.id == some productId) (addQuantity quantity) s.cart := by
  obtain ⟨found, hfound⟩ := (find_some_iff s.cart productId).2 h
  simp [handleAddToCart, hfound, renderCart_cart]

theorem handleAddToCart_cart_new (s : State) (productId : Int) (quantity : JSNum)
    (h : ∀ item ∈ s.cart, item.id ≠ some productId) :
    (handleAddToCart s productId quantity).cart
      = s.cart ++ [spreadWithQuantity (products.find? (fun p => p.id == productId)) quantity] := by
  have hnone := (find_none_iff s.cart productId).2 h
  simp [handleAddToCart, hnone, renderCart_cart]

/-- The state after `handleAddToCart` is determined by its cart. -/
theorem handleAddToCart_eq (s : State) (productId : Int) (quantity : JSNum) :
    handleAddToCart s productId quantity
      = { cart := (handleAddToCart s productId quantity).cart,
          cartTotalSpan := JSNum.toFixed2 (total (handleAddToCart s productId quantity).cart),
          storedCart := some (JSON.stringify (handleAddToCart s productId quantity).cart) } := by
  unfold handleAddToCart
  exact renderCart_eq _

/-- Every product of the catalog is the one `products.find` returns for its id. -/
theorem products_find (p : Product) (hp : p ∈ products) :
    products.find? (fun x => x.id == p.id) = some p := by
  revert p
  decide

theorem products_find_none (productId : Int) (h : ∀ p ∈ products, p.id ≠ productId) :
    products.find? (fun x => x.id == productId) = none := by
  simp only [List.find?_eq_none]
  intro p hp
  simpa using h p hp

theorem mutateFound_find (test : CartLine → Bool) (change : CartLine → CartLine)
    (hc : ∀ item, test (change item) = test item) (cart : List CartLine) :
    (mutateFound test change cart).find? test = (cart.find? test).map change := by
  induction cart with
  | nil => rfl
  | cons item rest ih =>
    by_cases h : test item = true
    · have h1 : test (change item) = true := by rw [hc]; exact h
      simp [mutateFound, h, h1]
    · simp [mutateFound, h, ih]

theorem mutateFound_countP (test : CartLine → Bool) (change : CartLine → CartLine)
    (hc : ∀ item, test (change item) = test item) (cart : List CartLine) :
    (mutateFound test change cart).countP test = cart.countP test := by
  induction cart with
  | nil => rfl
  | cons item rest ih =>
    by_cases h : test item = true
    · have h1 : test (change item) = true := by rw [hc]; exact h
      simp [mutateFound, h, h1, List.countP_cons]
    · simp [mutateFound, h, ih, List.countP_cons]

/-- What `handleAddToCart` does to the cart, for any product id: the first
line with that id is increased in place, or the line built from
`products.find` is pushed. -/
theorem handleAddToCart_cases (s : State) (productId : Int) (quantity : JSNum) :
    (∃ i item, s.cart[i]? = some item ∧ item.id = some productId ∧
      (∀ j other, j < i → s.cart[j]? = some other → other.id ≠ some productId) ∧
      (handleAddToCart s productId quantity).cart
        = s.cart.set i { item with quantity := item.quantity + quantity }) ∨
    ((∀ item ∈ s.cart, item.id ≠ some productId) ∧
      (handleAddToCart s productId quantity).cart
        = s.cart ++ [spreadWithQuantity (products.find? (fun p => p.id == productId)) quantity]) := by
  by_cases h : ∃ item ∈ s.cart, item.id = some productId
  · left
    have hfound : ∃ item ∈ s.cart, (fun item : CartLine => item.id == some productId) item = true := by
      obtain ⟨item, hmem, hid⟩ := h
      exact ⟨item, hmem, by simp [hid]⟩
    obtain ⟨i, item, hget, htest, hbefore, hset⟩ :=
      mutateFound_eq_set (fun item => item.id == some productId)
        (addQuantity quantity) s.cart hfound
    refine ⟨i, item, hget, by simpa using htest, ?_, ?_⟩
    · intro j other hj hother
      simpa using hbefore j other hj hother
    · rw [handleAddToCart_cart_found s productId quantity h, hset]
      rfl
  · right
    have hnone : ∀ item ∈ s.cart, item.id ≠ some productId := by
      intro item hmem hid
      exact h ⟨item, hmem, hid⟩
    exact ⟨hnone, handleAddToCart_cart_new s productId quantity hnone⟩

/-- Adding twice to a line that exists is adding the sum once. -/
theorem handleAddToCart_twice_found (s : State) (productId : Int) (q1 q2 : JSNum)
    (h : ∃ item ∈ s.cart, item.id = some productId) :
    (handleAddToCart (handleAddToCart s productId q1) productId q2).cart
      = (handleAddToCart s productId (q1 + q2)).cart := by
  have h1 := handleAddToCart_cart_found s productId q1 h
  have hc : ∀ item : CartLine,
      (fun item : CartLine => item.id == some productId) (addQuantity q1 item)
        = (fun item : CartLine => item.id == some productId) item := fun _ => rfl
  have hstill : ∃ item ∈ (handleAddToCart s productId q1).cart, item.id = some productId := by
    apply (find_some_iff _ _).1
    rw [h1, mutateFound_find _ _ hc]
    obtain ⟨found, hfound⟩ := (find_some_iff s.cart productId).2 h
    exact ⟨_, by rw [hfound]; rfl⟩
  rw [handleAddToCart_cart_found _ productId q2 hstill, h1,
    handleAddToCart_cart_found s productId (q1 + q2) h,
    mutateFound_twice _ _ _ hc]
  congr 1
  funext item
  simp only [addQuantity, JSNum.plus_assoc]

/-- Adding twice a catalog product that has no line yet is adding the sum once. -/
theorem handleAddToCart_twice_new (s : State) (p : Product) (q1 q2 : JSNum)
    (hp : p ∈ products) (h : ∀ item ∈ s.cart, item.id ≠ some p.id) :
    (handleAddToCart (handleAddToCart s p.id q1) p.id q2).cart
        = s.cart ++ [⟨some p.id, some p.name, some p.price, q1 + q2⟩] ∧
    (handleAddToCart s p.id (q1 + q2)).cart
        = s.cart ++ [⟨some p.id, some p.name, some p.price, q1 + q2⟩] := by
  have h1 := handleAddToCart_cart_new s p.id q1 h
  rw [products_find p hp] at h1
  have hstill : ∃ item ∈ (handleAddToCart s p.id q1).cart, item.id = some p.id := by
    rw [h1]
    exact ⟨_, List.mem_append_right _ (List.mem_singleton_self _), rfl⟩
  have hfalse : ∀ item ∈ s.cart, (fun item : CartLine => item.id == some p.id) item = false := by
    intro item hmem
    simpa using h item hmem
  constructor
  · rw [handleAddToCart_cart_found _ p.id q2 hstill, h1, mutateFound_append _ _ _ _ hfalse]
    simp [mutateFound, spreadWithQuantity, addQuantity]
  · rw [handleAddToCart_cart_new s p.id (q1 + q2) h, products_find p hp]
    rfl

/-- Two states produced by `handleAddToCart` with the same cart are the same. -/
theorem handleAddToCart_ext (s1 s2 : State) (i1 i2 : Int) (q1 q2 : JSNum)
    (h : (handleAddToCart s1 i1 q1).cart = (handleAddToCart s2 i2 q2).cart) :
    handleAddToCart s1 i1 q1 = handleAddToCart s2 i2 q2 := by
  rw [handleAddToCart_eq s1 i1 q1, handleAddToCart_eq s2 i2 q2, h]

/-! ## Invariants of the reachable carts -/

theorem spreadWithQuantity_quantity (productToAdd : Option Product) (quantity : JSNum) :
    (spreadWithQuantity productToAdd quantity).quantity = quantity := by
  cases productToAdd <;> rfl

theorem mutateFound_filterMap_id (test : CartLine → Bool) (change : CartLine → CartLine)
    (hc : ∀ item, (change item).id = item.id) (cart : List CartLine) :
    (mutateFound test change cart).filterMap CartLine.id = cart.filterMap CartLine.id := by
  induction cart with
  | nil => rfl
  | cons item rest ih =>
    by_cases h : test item = true
    · simp [mutateFound, h, List.filterMap_cons, hc]
    · simp [mutateFound, h, List.filterMap_cons, ih]

theorem mutateFound_mem (test : CartLine → Bool) (change : CartLine → CartLine)
    (cart : List CartLine) (x : CartLine) :
    x ∈ mutateFound test change cart → x ∈ cart ∨ ∃ y ∈ cart, x = change y := by
  induction cart with
  | nil => intro hx; simp [mutateFound] at hx
  | cons item rest ih =>
    intro hx
    by_cases h : test item = true
    · rw [mutateFound, if_pos h] at hx
      rcases List.mem_cons.1 hx with h1 | h1
      · exact Or.inr ⟨item, List.mem_cons_self _ _, h1⟩
      · exact Or.inl (List.mem_cons_of_mem _ h1)
    · rw [mutateFound, if_neg h] at hx
      rcases List.mem_cons.1 hx with h1 | h1
      · exact Or.inl (h1 ▸ List.mem_cons_self _ _)
      · rcases ih h1 with h2 | ⟨y, hy, hxy⟩
        · exact Or.inl (List.mem_cons_of_mem _ h2)
        · exact Or.inr ⟨y, List.mem_cons_of_mem _ hy, hxy⟩

/-- The ids carried by the lines stay pairwise distinct under every event. -/
theorem step_ids_nodup (s : State) (op : Op)
    (h : (s.cart.filterMap CartLine.id).Nodup) :
    ((step s op).cart.filterMap CartLine.id).Nodup := by
  cases op with
  | clear => exact List.nodup_nil
  | add productId quantity =>
    show ((handleAddToCart s productId quantity).cart.filterMap CartLine.id).Nodup
    by_cases hin : ∃ item ∈ s.cart, item.id = some productId
    · rw [handleAddToCart_cart_found s productId quantity hin,
        mutateFound_filterMap_id _ (addQuantity quantity) (fun _ => rfl)]
      exact h
    · have hnone : ∀ item ∈ s.cart, item.id ≠ some productId := by
        intro item hmem hid
        exact hin ⟨item, hmem, hid⟩
      rw [handleAddToCart_cart_new s productId quantity hnone]
      cases hfind : products.find? (fun p => p.id == productId) with
      | none => simpa [spreadWithQuantity, List.filterMap_append] using h
      | some p =>
        have hid : p.id = productId := by simpa using List.find?_some hfind
        simp only [spreadWithQuantity, List.filterMap_append, List.filterMap_cons,
          List.filterMap_nil, hid]
        refine List.Nodup.append h (List.nodup_singleton _) ?_
        intro i hi hi2
        rw [List.mem_singleton] at hi2
        subst hi2
        obtain ⟨item, hmem, hitem⟩ := List.mem_filterMap.1 hi
        exact hnone item hmem hitem

theorem run_ids_nodup (ops : List Op) (s : State)
    (h : (s.cart.filterMap CartLine.id).Nodup) :
    ((run s ops).cart.filterMap CartLine.id).Nodup := by
  induction ops generalizing s with
  | nil => exact h
  | cons op ops ih => exact ih (step s op) (step_ids_nodup s op h)

/-- With catalog ids only, every line carries an id. -/
theorem step_ids_present (s : State) (op : Op) (hop : op.inCatalog = true)
    (h : ∀ x ∈ s.cart.map CartLine.id, x ≠ none) :
    ∀ x ∈ (step s op).cart.map CartLine.id, x ≠ none := by
  cases op with
  | clear =>
    intro x hx
    simp [step, clearCart, renderCart_cart] at hx
  | add productId quantity =>
    show ∀ x ∈ (handleAddToCart s productId quantity).cart.map CartLine.id, x ≠ none
    by_cases hin : ∃ item ∈ s.cart, item.id = some productId
    · rw [handleAddToCart_cart_found s productId quantity hin,
        mutateFound_map_id _ (addQuantity quantity) (fun _ => rfl)]
      exact h
    · have hnone : ∀ item ∈ s.cart, item.id ≠ some productId := by
        intro item hmem hid
        exact hin ⟨item, hmem, hid⟩
      obtain ⟨p, hp, hid⟩ := List.any_eq_true.1 hop
      have hid : p.id = productId := by simpa using hid
      subst hid
      rw [handleAddToCart_cart_new s p.id quantity hnone, products_find p hp]
      intro x hx
      simp only [List.map_append, List.mem_append, List.map_cons, List.map_nil,
        List.mem_singleton] at hx
      rcases hx with hx | hx
      · exact h x hx
      · rw [hx]
        simp [spreadWithQuantity]

theorem run_ids_present (ops : List Op) (s : State)
    (hops : ∀ op ∈ ops, op.inCatalog = true)
    (h : ∀ x ∈ s.cart.map CartLine.id, x ≠ none) :
    ∀ x ∈ (run s ops).cart.map CartLine.id, x ≠ none := by
  induction ops generalizing s with
  | nil => exact h
  | cons op ops ih =>
    refine ih (step s op) (fun x hmem => hops x (List.mem_cons_of_mem _ hmem)) ?_
    exact step_ids_present s op (hops op (List.mem_cons_self _ _)) h

theorem nodup_of_filterMap_nodup (cart : List CartLine)
    (hpresent : ∀ x ∈ cart.map CartLine.id, x ≠ none)
    (h : (cart.filterMap CartLine.id).Nodup) : (cart.map CartLine.id).Nodup := by
  have hmap : cart.map CartLine.id = (cart.filterMap CartLine.id).map some := by
    induction cart with
    | nil => rfl
    | cons item rest ih =>
      have hrest : ∀ x ∈ rest.map CartLine.id, x ≠ none := by
        intro x hx
        exact hpresent x (by simp only [List.map_cons]; exact List.mem_cons_of_mem _ hx)
      have hitem : item.id ≠ none := hpresent item.id (by simp)
      cases hid : item.id with
      | none => exact absurd hid hitem
      | some i => simp [List.filterMap_cons, hid, ih hrest (by
          simpa [List.filterMap_cons, hid] using (List.nodup_cons.1 (by
            simpa [List.filterMap_cons, hid] using h)).2)]
  rw [hmap]
  exact h.map (Option.some_injective _)

/-- Every line that carries an id carries the catalog price of that id. -/
theorem step_prices (s : State) (op : Op)
    (h : ∀ item ∈ s.cart, ∀ i, item.id = some i →
      ∃ p ∈ products, p.id = i ∧ item.price = some p.price) :
    ∀ item ∈ (step s op).cart, ∀ i, item.id = some i →
      ∃ p ∈ products, p.id = i ∧ item.price = some p.price := by
  cases op with
  | clear =>
    intro item hmem
    simp [step, clearCart, renderCart_cart] at hmem
  | add productId quantity =>
    show ∀ item ∈ (handleAddToCart s productId quantity).cart, ∀ i, item.id = some i →
      ∃ p ∈ products, p.id = i ∧ item.price = some p.price
    intro item hmem i hid
    by_cases hin : ∃ item ∈ s.cart, item.id = some productId
    · rw [handleAddToCart_cart_found s productId quantity hin] at hmem
      rcases mutateFound_mem _ _ _ _ hmem with h1 | ⟨y, hy, hxy⟩
      · exact h item h1 i hid
      · subst hxy
        exact h y hy i hid
    · have hnone : ∀ item ∈ s.cart, item.id ≠ some productId := by
        intro item hmem hid
        exact hin ⟨item, hmem, hid⟩
      rw [handleAddToCart_cart_new s productId quantity hnone] at hmem
      rcases List.mem_append.1 hmem with h1 | h1
      · exact h item h1 i hid
      · rw [List.mem_singleton] at h1
        subst h1
        cases hfind : products.find? (fun p => p.id == productId) with
        | none =>
          rw [hfind] at hid
          simp [spreadWithQuantity] at hid
        | some p =>
          rw [hfind] at hid
          refine ⟨p, List.mem_of_find?_eq_some hfind, ?_, ?_⟩
          · simpa [spreadWithQuantity] using hid
          · rfl

theorem run_prices (ops : List Op) (s : State)
    (h : ∀ item ∈ s.cart, ∀ i, item.id = some i →
      ∃ p ∈ products, p.id = i ∧ item.price = some p.price) :
    ∀ item ∈ (run s ops).cart, ∀ i, item.id = some i →
      ∃ p ∈ products, p.id = i ∧ item.price = some p.price := by
  induction ops generalizing s with
  | nil => exact h
  | cons op ops ih => exact ih (step s op) (step_prices s op h)

/-- Two catalog products with the same id are the same product. -/
theorem products_id_inj (p p2 : Product) (hp : p ∈ products) (hp2 : p2 ∈ products)
    (hid : p2.id = p.id) : p2 = p := by
  have h1 := products_find p hp
  have h2 := products_find p2 hp2
  rw [hid, h1] at h2
  exact (Option.some.inj h2).symm

theorem total_mutateFound (test : CartLine → Bool) (quantity : JSNum) (c : Int)
    (cart : List CartLine) (hfound : ∃ item ∈ cart, test item = true)
    (hprice : ∀ item ∈ cart, test item = true → item.price = some c) :
    total (mutateFound test (addQuantity quantity) cart)
      = total cart + JSNum.int c * quantity := by
  induction cart with
  | nil => simp at hfound
  | cons item rest ih =>
    by_cases h : test item = true
    · have hc : item.price = some c := hprice item (List.mem_cons_self _ _) h
      rw [mutateFound, if_pos h, total_cons, total_cons]
      simp only [addQuantity, hc, toNumber, JSNum.int_times_plus]
      rw [JSNum.plus_assoc, JSNum.plus_assoc,
        JSNum.plus_comm (JSNum.int c * quantity) (total rest)]
    · have hrest : ∃ x ∈ rest, test x = true := by
        obtain ⟨x, hmem, hx⟩ := hfound
        rcases List.mem_cons.1 hmem with heq | hmem
        · exact absurd (heq ▸ hx) h
        · exact ⟨x, hmem, hx⟩
      rw [mutateFound, if_neg h, total_cons, total_cons,
        ih hrest (fun x hx => hprice x (List.mem_cons_of_mem _ hx)), JSNum.plus_assoc]

/-- Adding a catalog product raises the total by price × quantity, on every
cart whose lines carry catalog prices. -/
theorem total_handleAddToCart (s : State) (p : Product) (quantity : JSNum)
    (hp : p ∈ products)
    (h : ∀ item ∈ s.cart, ∀ i, item.id = some i →
      ∃ p ∈ products, p.id = i ∧ item.price = some p.price) :
    total (handleAddToCart s p.id quantity).cart
      = total s.cart + JSNum.int p.price * quantity := by
  by_cases hin : ∃ item ∈ s.cart, item.id = some p.id
  · rw [handleAddToCart_cart_found s p.id quantity hin]
    apply total_mutateFound
    · obtain ⟨item, hmem, hid⟩ := hin
      exact ⟨item, hmem, by simp [hid]⟩
    · intro item hmem htest
      have hid : item.id = some p.id := by simpa using htest
      obtain ⟨p2, hp2, hid2, hprice⟩ := h item hmem p.id hid
      rw [hprice, products_id_inj p p2 hp hp2 hid2]
  · have hnone : ∀ item ∈ s.cart, item.id ≠ some p.id := by
      intro item hmem hid
      exact hin ⟨item, hmem, hid⟩
    rw [handleAddToCart_cart_new s p.id quantity hnone, products_find p hp, total_append,
      total_cons, total_nil, JSNum.plus_zero]
    rfl

/-- With quantities that are integers from 1 up, every line keeps such a
quantity. -/
theorem step_quantities (s : State) (op : Op) (hop : op.quantityValid = true)
    (h : ∀ item ∈ s.cart, ∃ n : Int, item.quantity = JSNum.int n ∧ 1 ≤ n) :
    ∀ item ∈ (step s op).cart, ∃ n : Int, item.quantity = JSNum.int n ∧ 1 ≤ n := by
  cases op with
  | clear =>
    intro item hmem
    simp [step, clearCart, renderCart_cart] at hmem
  | add productId quantity =>
    show ∀ item ∈ (handleAddToCart s productId quantity).cart,
      ∃ n : Int, item.quantity = JSNum.int n ∧ 1 ≤ n
    cases quantity with
    | nan => simp [Op.quantityValid] at hop
    | int q =>
      have hq : 1 ≤ q := by simpa [Op.quantityValid] using hop
      intro item hmem
      by_cases hin : ∃ item ∈ s.cart, item.id = some productId
      · rw [handleAddToCart_cart_found s productId _ hin] at hmem
        rcases mutateFound_mem _ _ _ _ hmem with h1 | ⟨y, hy, hxy⟩
        · exact h item h1
        · obtain ⟨n, hn, hpos⟩ := h y hy
          refine ⟨n + q, ?_, by omega⟩
          rw [hxy, addQuantity, hn]
          rfl
      · have hnone : ∀ item ∈ s.cart, item.id ≠ some productId := by
          intro item hmem hid
          exact hin ⟨item, hmem, hid⟩
        rw [handleAddToCart_cart_new s productId _ hnone] at hmem
        rcases List.mem_append.1 hmem with h1 | h1
        · exact h item h1
        · rw [List.mem_singleton] at h1
          exact ⟨q, by rw [h1, spreadWithQuantity_quantity], hq⟩

theorem run_quantities (ops : List Op) (s : State) (hops : ∀ op ∈ ops, op.quantityValid = true)
    (h : ∀ item ∈ s.cart, ∃ n : Int, item.quantity = JSNum.int n ∧ 1 ≤ n) :
    ∀ item ∈ (run s ops).cart, ∃ n : Int, item.quantity = JSNum.int n ∧ 1 ≤ n := by
  induction ops generalizing s with
  | nil => exact h
  | cons op ops ih =>
    refine ih (step s op) (fun x hmem => hops x (List.mem_cons_of_mem _ hmem)) ?_
    exact step_quantities s op (hops op (List.mem_cons_self _ _)) h

/-- C4. Whatever the state before, after the clear-cart handler the cart has
zero lines, the total computed by `updateCartTotal` is 0 and is shown as
`0.00`; the total of a cart with zero lines is 0. -/
theorem clearCart_resets (s : State) :
    (clearCart s).cart = [] ∧ (clearCart s).cart.length = 0 ∧
    total (clearCart s).cart = JSNum.int 0 ∧ (clearCart s).cartTotalSpan = "0.00" ∧
    ∀ cart : List CartLine, cart.length = 0 → total cart = JSNum.int 0 := by
  refine ⟨rfl, rfl, rfl, ?_, ?_⟩
  · show JSNum.toFixed2 (JSNum.int 0) = "0.00"
    decide
  intro cart h
  rw [List.length_eq_zero] at h
  subst h
  rfl

/-- C7, amended. For a product id that is not in the catalog,
`handleAddToCart` does not reject: when a line of the cart has that id, the
first such line has its quantity increased and nothing else changes; otherwise
the cart gets one new last line that holds the quantity and no id, name or
price. -/
theorem handleAddToCart_unknown_id (s : State) (productId : Int) (quantity : JSNum)
    (h : ∀ p ∈ products, p.id ≠ productId) :
    (∃ i item, s.cart[i]? = some item ∧ item.id = some productId ∧
      (∀ j other, j < i → s.cart[j]? = some other → other.id ≠ some productId) ∧
      (handleAddToCart s productId quantity).cart
        = s.cart.set i { item with quantity := item.quantity + quantity }) ∨
    ((∀ item ∈ s.cart, item.id ≠ some productId) ∧
      (handleAddToCart s productId quantity).cart
        = s.cart ++ [⟨none, none, none, quantity⟩]) := by
  rcases handleAddToCart_cases s productId quantity with hfound | ⟨hnone, hcart⟩
  · exact Or.inl hfound
  · right
    rw [products_find_none productId h] at hcart
    exact ⟨hnone, hcart⟩

/-- C7, amended, at id 999 with quantity 1 on the cart holding two of
product 1: a line without product fields is appended. -/
theorem handleAddToCart_unknown_id_witness :
    (∀ p ∈ products, p.id ≠ 999) ∧
    ((∃ i item, (handleAddToCart freshState 1 (JSNum.int 2)).cart[i]? = some item ∧
        item.id = some 999 ∧
        (∀ j other, j < i → (handleAddToCart freshState 1 (JSNum.int 2)).cart[j]? = some other →
          other.id ≠ some 999) ∧
        (handleAddToCart (handleAddToCart freshState 1 (JSNum.int 2)) 999 (JSNum.int 1)).cart
          = (handleAddToCart freshState 1 (JSNum.int 2)).cart.set i
              { item with quantity := item.quantity + JSNum.int 1 }) ∨
      ((∀ item ∈ (handleAddToCart freshState 1 (JSNum.int 2)).cart, item.id ≠ some 999) ∧
        (handleAddToCart (handleAddToCart freshState 1 (JSNum.int 2)) 999 (JSNum.int 1)).cart
          = (handleAddToCart freshState 1 (JSNum.int 2)).cart ++
              [⟨none, none, none, JSNum.int 1⟩])) :=
  ⟨by decide,
    handleAddToCart_unknown_id (handleAddToCart freshState 1 (JSNum.int 2)) 999 (JSNum.int 1)
      (by decide)⟩

/-- C7 as stated fails: 999 is not in the catalog, and on the fresh page
`handleAddToCart(999, 1)` adds a line instead of leaving the cart unchanged. -/
theorem handleAddToCart_unknown_id_counterexample :
    (∀ p ∈ products, p.id ≠ 999) ∧
    (handleAddToCart freshState 999 (JSNum.int 1)).cart = [⟨none, none, none, JSNum.int 1⟩] ∧
    (handleAddToCart freshState 999 (JSNum.int 1)).cart ≠ freshState.cart := by
  decide

/-- C5, amended. When the slot is absent, or holds the JSON text of a falsy
value (`null`, `false`, `0`, the empty string), the initialisation gives the
empty array and raises nothing.  A text that is not JSON makes `JSON.parse`
throw, and the error leaves the initialisation; a text that denotes any other
value becomes the cart as it is. -/
theorem initialCart_cases :
    initialCart none = Except.ok (JSValue.arr []) ∧
    (∀ doc, truthy doc = false →
      initialCart (some (StoredText.json doc)) = Except.ok (JSValue.arr [])) ∧
    (∀ doc, truthy doc = false ↔
      doc = JSValue.null ∨ doc = JSValue.bool false ∨ doc = JSValue.num JSNum.nan ∨
        doc = JSValue.num (JSNum.int 0) ∨ doc = JSValue.str "") ∧
    initialCart (some StoredText.malformed) = Except.error JSError.syntaxError ∧
    (∀ doc, truthy doc = true → initialCart (some (StoredText.json doc)) = Except.ok doc) := by
  refine ⟨rfl, ?_, ?_, rfl, ?_⟩
  · intro doc h
    simp [initialCart, JSON.parse, h]
  · intro doc
    cases doc with
    | null => simp [truthy]
    | bool b => cases b <;> simp [truthy]
    | num n => cases n <;> simp [truthy]
    | str s => simp [truthy]
    | arr items => simp [truthy]
    | obj props => simp [truthy]
  · intro doc h
    simp [initialCart, JSON.parse, h]

/-- C5, amended, at the stored text `0`. -/
theorem initialCart_cases_witness :
    initialCart (some (StoredText.json (JSValue.num (JSNum.int 0))))
      = Except.ok (JSValue.arr []) :=
  initialCart_cases.2.1 (JSValue.num (JSNum.int 0)) rfl

/-- C5 as stated fails: a stored text that is not JSON is not serialized cart
data, and the initialisation ends in the `SyntaxError` of `JSON.parse`; the
stored text `5` is not serialized cart data either, and the cart becomes the
number 5. -/
theorem initialCart_counterexample :
    ¬ IsSerializedCart (some StoredText.malformed) ∧
    initialCart (some StoredText.malformed) = Except.error JSError.syntaxError ∧
    initialCart (some StoredText.malformed) ≠ Except.ok (JSValue.arr []) ∧
    ¬ IsSerializedCart (some (StoredText.json (JSValue.num (JSNum.int 5)))) ∧
    initialCart (some (StoredText.json (JSValue.num (JSNum.int 5))))
      = Except.ok (JSValue.num (JSNum.int 5)) := by
  refine ⟨?_, rfl, ?_, ?_, rfl⟩
  · rintro ⟨cart, h⟩
    simp [JSON.stringify] at h
  · intro h
    simp [initialCart, JSON.parse] at h
  · rintro ⟨cart, h⟩
    simp [JSON.stringify] at h

end CartSim
